import Mathlib

/-!
Shallow embedding of the order reconciliation and parsing engine of the
efw-dashboard repository (src/utils/csvParser.ts: parseCSVData, parseCSVLine,
cleanClassName; DashboardStats/ClassBreakdown: proportional revenue
allocation).  JavaScript strings are modelled as Lean `String` (lists of
characters); JavaScript numbers are modelled as exact rationals `ℚ`
(`parseFloat`/`parseInt` results that would be `NaN` are modelled as `0`;
no claim in this development depends on NaN propagation).  All definitions
use structural recursion so that concrete inputs evaluate by `rfl`/`decide`.
-/

set_option maxRecDepth 100000

namespace EFW

/-- Decidable equality for Except values, used to evaluate parse results on
concrete inputs. -/
instance {ε α : Type _} [DecidableEq ε] [DecidableEq α] :
    DecidableEq (Except ε α) := fun x y =>
  match x, y with
  | Except.ok a, Except.ok b =>
      if h : a = b then Decidable.isTrue (congrArg _ h)
      else Decidable.isFalse (fun he => h (Except.ok.inj he))
  | Except.error a, Except.error b =>
      if h : a = b then Decidable.isTrue (congrArg _ h)
      else Decidable.isFalse (fun he => h (Except.error.inj he))
  | Except.ok _, Except.error _ =>
      Decidable.isFalse (fun he => Except.noConfusion he)
  | Except.error _, Except.ok _ =>
      Decidable.isFalse (fun he => Except.noConfusion he)

/-- Character-list trim used to model JavaScript String.prototype.trim
(ASCII whitespace suffices for this code base). -/
def trimChars (l : List Char) : List Char :=
  ((l.dropWhile Char.isWhitespace).reverse.dropWhile Char.isWhitespace).reverse

/-- Model of JavaScript s.trim(). -/
def myTrim (s : String) : String := ⟨trimChars s.data⟩

/-- Model of JavaScript s.toLowerCase() (ASCII range). -/
def myToLower (s : String) : String := ⟨s.data.map Char.toLower⟩

/-- Split a character list at every occurrence of a single character,
modelling JavaScript s.split(c). -/
def splitCharAux (sep : Char) : List Char → List (List Char)
  | [] => [[]]
  | c :: rest =>
      if c = sep then [] :: splitCharAux sep rest
      else (splitCharAux sep rest).modifyHead (fun f => c :: f)

/-- Model of JavaScript s.split(sep) for a one-character separator. -/
def splitChar (sep : Char) (s : String) : List String :=
  (splitCharAux sep s.data).map (fun l => ⟨l⟩)

/-- Splitting on the literal three-character separator " - ", modelling
JavaScript s.split(' - ') (leftmost occurrence first). -/
def splitDashAux : List Char → List Char → List (List Char)
  | ' ' :: '-' :: ' ' :: rest, acc => acc.reverse :: splitDashAux rest []
  | c :: rest, acc => splitDashAux rest (c :: acc)
  | [], acc => [acc.reverse]

/-- Model of JavaScript s.split(' - '). -/
def splitDash (s : String) : List String :=
  (splitDashAux s.data []).map (fun l => ⟨l⟩)

/-- Model of the regex replace /[^0-9.-]/g applied in the parser: keep only
digits, the dot and the minus sign. -/
def cleanNum (s : String) : String :=
  ⟨s.data.filter (fun c => c.isDigit || c = '.' || c = '-')⟩

/-- Value of a list of decimal digits, most significant first. -/
def digitsToNat (l : List Char) : Nat :=
  l.foldl (fun n c => 10 * n + (c.toNat - '0'.toNat)) 0

/-- Model of JavaScript parseFloat on strings made only of digits, dots and
minus signs (the only shapes the parser feeds it): optional leading minus,
integer digits, optional fractional digits; a string with no digit in the
leading numeric prefix gives NaN, modelled here as 0.  The value is built
with mkRat on integers so that concrete inputs reduce inside the kernel. -/
def jsParseFloat (s : String) : ℚ :=
  let (neg, l) := match s.data with
    | '-' :: rest => (true, rest)
    | l => (false, l)
  let intPart := l.takeWhile Char.isDigit
  let afterInt := l.dropWhile Char.isDigit
  let fracPart := match afterInt with
    | '.' :: rest => rest.takeWhile Char.isDigit
    | _ => []
  if intPart = [] ∧ fracPart = [] then 0
  else
    let k := fracPart.length
    let n : Int := (digitsToNat intPart * 10 ^ k + digitsToNat fracPart : Nat)
    mkRat (if neg then -n else n) (10 ^ k)

/-- Model of JavaScript parseInt(s, 10): skip leading whitespace, optional
sign, then a maximal run of digits; no digits gives NaN, modelled as 0. -/
def jsParseInt (s : String) : Int :=
  let l := s.data.dropWhile Char.isWhitespace
  let (neg, l2) := match l with
    | '-' :: rest => (true, rest)
    | '+' :: rest => (false, rest)
    | l => (false, l)
  let ds := l2.takeWhile Char.isDigit
  if ds = [] then 0
  else if neg then -(digitsToNat ds : Int) else (digitsToNat ds : Int)

/-!  The line tokenizer (source function parseCSVLine).  -/

/-- State-passing recursion over the characters of one line, translating the
for-loop of parseCSVLine: remaining characters, inQuotes flag, current field
accumulator.  A doubled quote inside a quoted region is consumed in one step,
matching the i++ skip of the source. -/
def parseCSVLineAux : List Char → Bool → List Char → List (List Char)
  | [], _, current => [current]
  | '"' :: '"' :: rest2, true, current =>
      parseCSVLineAux rest2 true (current ++ ['"'])
  | '"' :: rest, inQuotes, current =>
      if inQuotes then parseCSVLineAux rest false current
      else parseCSVLineAux rest true current
  | ',' :: rest, inQuotes, current =>
      if inQuotes then parseCSVLineAux rest true (current ++ [','])
      else current :: parseCSVLineAux rest false []
  | c :: rest, inQuotes, current => parseCSVLineAux rest inQuotes (current ++ [c])

/-- Model of the source function parseCSVLine: split one line on commas that
lie outside quoted regions; a doubled quote inside a quoted region is a
literal quote; an unterminated quoted region consumes to end of line. -/
def parseCSVLine (line : String) : List String :=
  (parseCSVLineAux line.data false []).map (fun l => ⟨l⟩)

/-!  The class-name canonicalizer (source function cleanClassName).  -/

/-- Model of the regex replace /\s*@\s*\d+\s*$/ in cleanClassName: strip one
trailing capacity annotation "@ digits" together with surrounding spaces. -/
def stripCapacity (s : String) : String :=
  let r1 := s.data.reverse.dropWhile Char.isWhitespace
  let r2 := r1.dropWhile Char.isDigit
  if r2 = r1 then s
  else
    match r2.dropWhile Char.isWhitespace with
    | '@' :: rest => ⟨(rest.dropWhile Char.isWhitespace).reverse⟩
    | _ => s

/-- The duplicate-collapsing middle step of cleanClassName: two parts equal
case-insensitively collapse to the first; four parts whose halves are equal
case-insensitively collapse to the first half. -/
def collapseStep (cleaned : String) : String :=
  let parts := splitDash cleaned
  if parts.length = 2 then
    if myToLower (myTrim (parts.getD 0 "")) = myToLower (myTrim (parts.getD 1 "")) then
      myTrim (parts.getD 0 "")
    else cleaned
  else if parts.length = 4 then
    let firstHalf := myTrim (parts.getD 0 "") ++ " - " ++ myTrim (parts.getD 1 "")
    let secondHalf := myTrim (parts.getD 2 "") ++ " - " ++ myTrim (parts.getD 3 "")
    if myToLower firstHalf = myToLower secondHalf then firstHalf else cleaned
  else cleaned

/-- Model of the source function cleanClassName. -/
def cleanClassName (className : String) : String :=
  myTrim (collapseStep (stripCapacity className))

/-!  Data model of parseCSVData.  -/

/-- The order-level financial snapshot stored per order id during pass 1
(the orderTotals map entries of parseCSVData). -/
structure Snapshot where
  orderSubTotal : ℚ
  orderTaxAmount : ℚ
  orderTotalAmount : ℚ
  sourceName : String
deriving DecidableEq

/-- The output record of parseCSVData (interface ParsedOrder). -/
structure ParsedOrder where
  orderId : String
  customerName : String
  customerEmail : String
  customerPhone : String
  status : String
  sourceName : String
  orderDate : String
  orderTime : String
  className : String
  quantity : Int
  price : ℚ
  lineItemSubtotal : ℚ
  orderSubTotal : ℚ
  orderTaxAmount : ℚ
  orderTotalAmount : ℚ
deriving DecidableEq

/-- The optional filterCity parameter of parseCSVData. -/
inductive City where
  | dc
  | atlanta
deriving DecidableEq

/-- The targetSource computed from filterCity in parseCSVData. -/
def targetSource : Option City → Option String
  | some City.dc => some ("Ebony Fit Weekend - " ++ "DC")
  | some City.atlanta => some ("Ebony Fit Weekend - " ++ "Atlanta")
  | none => none

/-- The column-index record of parseCSVData (the indices object). -/
structure Indices where
  orderId : Nat
  customerName : Nat
  customerEmail : Nat
  customerPhone : Nat
  status : Nat
  sourceName : Nat
  orderDate : Nat
  orderTime : Nat
  className : Nat
  quantity : Nat
  price : Nat
  lineItemSubtotal : Nat
  orderSubTotal : Nat
  orderTaxAmount : Nat
  orderTotalAmount : Nat
deriving DecidableEq

/-- Boolean prefix test on character lists. -/
def isPrefixList : List Char → List Char → Bool
  | [], _ => true
  | _ :: _, [] => false
  | a :: as, b :: bs => a == b && isPrefixList as bs

/-- Boolean substring test on character lists, modelling
JavaScript String.prototype.includes. -/
def containsSub (needle : List Char) : List Char → Bool
  | [] => isPrefixList needle []
  | l@(_ :: rest) => isPrefixList needle l || containsSub needle rest

/-- Case-insensitive substring header match used by getColumnIndex. -/
def colMatches (label : String) (h : String) : Bool :=
  containsSub (myToLower label).data (myToLower h).data

/-- Model of the local getColumnIndex of parseCSVData: first header whose
lowercased text contains the label lowercased, else the thrown error. -/
def getColumnIndex (headers : List String) (header : String) : Except String Nat :=
  match headers.findIdx? (colMatches header) with
  | some i => Except.ok i
  | none => Except.error ("Column \"" ++ header ++ "\" not found in CSV")

/-- Resolution of all fifteen required columns, in the source's order. -/
def resolveIndices (headers : List String) : Except String Indices := do
  let orderId ← getColumnIndex headers "Internal order id"
  let customerName ← getColumnIndex headers "Customer name"
  let customerEmail ← getColumnIndex headers "Customer email"
  let customerPhone ← getColumnIndex headers "Customer phone"
  let status ← getColumnIndex headers "Status"
  let sourceName ← getColumnIndex headers "Source name"
  let orderDate ← getColumnIndex headers "Order date"
  let orderTime ← getColumnIndex headers "Order time"
  let className ← getColumnIndex headers "Line item Name"
  let quantity ← getColumnIndex headers "Line item Quantity"
  let price ← getColumnIndex headers "Line item Price"
  let lineItemSubtotal ← getColumnIndex headers "Line item Subtotal"
  let orderSubTotal ← getColumnIndex headers "Sub total"
  let orderTaxAmount ← getColumnIndex headers "Tax Amount"
  let orderTotalAmount ← getColumnIndex headers "Total Amount"
  pure { orderId, customerName, customerEmail, customerPhone, status,
         sourceName, orderDate, orderTime, className, quantity, price,
         lineItemSubtotal, orderSubTotal, orderTaxAmount, orderTotalAmount }

/-- Math.max over the values of the indices object. -/
def maxIndex (idx : Indices) : Nat :=
  idx.orderId.max (idx.customerName.max (idx.customerEmail.max
    (idx.customerPhone.max (idx.status.max (idx.sourceName.max
    (idx.orderDate.max (idx.orderTime.max (idx.className.max
    (idx.quantity.max (idx.price.max (idx.lineItemSubtotal.max
    (idx.orderSubTotal.max (idx.orderTaxAmount.max idx.orderTotalAmount)))))))))))))

/-- Model of the ubiquitous access pattern values[i]?.trim() || '' of the
source: out-of-range reads give the empty string, in-range reads are
trimmed. -/
def getField (values : List String) (i : Nat) : String :=
  myTrim (values.getD i "")

/-- Model of parseFloat(values[i]?.replace(/[^0-9.-]/g, '') || '0'): an
out-of-range or empty cleaned field falls back to the string "0". -/
def parseMoneyField (values : List String) (i : Nat) : ℚ :=
  let c := cleanNum (values.getD i "")
  jsParseFloat (if c = "" then "0" else c)

/-- Model of parseInt(values[i] || '0', 10). -/
def parseQuantityField (values : List String) (i : Nat) : Int :=
  let v := values.getD i ""
  jsParseInt (if v = "" then "0" else v)

/-- The source-validity test of pass 1: with a filter the row's source must
equal the target label, without one it must be one of the two known city
labels. -/
def isValidSource (ts : Option String) (sourceName : String) : Bool :=
  match ts with
  | some t => sourceName == t
  | none =>
      sourceName == "Ebony Fit Weekend - DC" ||
      sourceName == "Ebony Fit Weekend - Atlanta"

/-- Pass-1 treatment of one data row: the value is some (orderId, snapshot)
exactly when the row qualifies (it is long enough, its order id and source
name are non-blank, the source is valid and the status is completed,
case-insensitively); the snapshot carries the row's order-level totals. -/
def rowQual (idx : Indices) (ts : Option String) (values : List String) :
    Option (String × Snapshot) :=
  if values.length < maxIndex idx + 1 then none
  else
    let orderId := getField values idx.orderId
    let sourceName := getField values idx.sourceName
    let status := getField values idx.status
    if orderId = "" ∨ sourceName = "" then none
    else if isValidSource ts sourceName ∧ myToLower status = "completed" then
      some (orderId,
        { orderSubTotal := parseMoneyField values idx.orderSubTotal
          orderTaxAmount := parseMoneyField values idx.orderTaxAmount
          orderTotalAmount := parseMoneyField values idx.orderTotalAmount
          sourceName := sourceName })
    else none

/-- Lookup in the association-list model of the orderTotals Map. -/
def lookupSnap (totals : List (String × Snapshot)) (oid : String) : Option Snapshot :=
  (totals.find? (fun p => p.1 == oid)).map (fun p => p.2)

/-- One pass-1 step: a qualifying row adds its order id to the valid set and
stores its snapshot only if the order id has no snapshot yet. -/
def pass1Step (idx : Indices) (ts : Option String)
    (st : List String × List (String × Snapshot)) (values : List String) :
    List String × List (String × Snapshot) :=
  match rowQual idx ts values with
  | none => st
  | some (oid, snap) =>
      (oid :: st.1,
       match lookupSnap st.2 oid with
       | some _ => st.2
       | none => st.2 ++ [(oid, snap)])

/-- The whole first pass over the data rows. -/
def pass1 (idx : Indices) (ts : Option String) (rows : List (List String)) :
    List String × List (String × Snapshot) :=
  rows.foldl (pass1Step idx ts) ([], [])

/-- Model of the fallback scan of pass 2: the first data row (header
excluded, short rows skipped) sharing the order id and carrying a non-blank
customer name. -/
def findFallback (idx : Indices) (rows : List (List String)) (orderId : String) :
    Option (List String) :=
  rows.find? (fun mv =>
    decide (¬ mv.length < maxIndex idx + 1) &&
    (getField mv idx.orderId == orderId) &&
    (getField mv idx.customerName != ""))

/-- The customer-identity resolution of pass 2: when the row's own customer
name or email is blank, take the identity fields from the first row of the
order that carries a non-blank customer name (the fallback row's email is
kept only when non-blank there); otherwise keep the row's own fields. -/
def resolveCustomer (idx : Indices) (rows : List (List String))
    (orderId name email phone status date time : String) :
    String × String × String × String × String × String :=
  if name = "" ∨ email = "" then
    match findFallback idx rows orderId with
    | some mv =>
        (getField mv idx.customerName,
         if getField mv idx.customerEmail = "" then email
         else getField mv idx.customerEmail,
         getField mv idx.customerPhone,
         getField mv idx.status,
         getField mv idx.orderDate,
         getField mv idx.orderTime)
    | none => (name, email, phone, status, date, time)
  else (name, email, phone, status, date, time)

/-- Pass-2 treatment of one data row: emit a ParsedOrder, or skip the row. -/
def pass2Row (idx : Indices) (validIds : List String)
    (totals : List (String × Snapshot)) (rows : List (List String))
    (values : List String) : Option ParsedOrder :=
  if values.length < maxIndex idx + 1 then none
  else
    let orderId := getField values idx.orderId
    if orderId = "" ∨ ¬ validIds.contains orderId then none
    else
      let className := getField values idx.className
      if className = "" then none
      else
        match lookupSnap totals orderId with
        | none => none
        | some orderData =>
          let filled := resolveCustomer idx rows orderId
            (getField values idx.customerName)
            (getField values idx.customerEmail)
            (getField values idx.customerPhone)
            (getField values idx.status)
            (getField values idx.orderDate)
            (getField values idx.orderTime)
          if filled.1 = "" ∨ filled.2.1 = "" then none
          else
            some { orderId := orderId
                   customerName := filled.1
                   customerEmail := filled.2.1
                   customerPhone := filled.2.2.1
                   status := filled.2.2.2.1
                   sourceName := orderData.sourceName
                   orderDate := filled.2.2.2.2.1
                   orderTime := filled.2.2.2.2.2
                   className := cleanClassName className
                   quantity := parseQuantityField values idx.quantity
                   price := parseMoneyField values idx.price
                   lineItemSubtotal := parseMoneyField values idx.lineItemSubtotal
                   orderSubTotal := orderData.orderSubTotal
                   orderTaxAmount := orderData.orderTaxAmount
                   orderTotalAmount := orderData.orderTotalAmount }

/-- Header line of the input: lines[0] after trimming and splitting. -/
def headerLine (csvText : String) : String :=
  (splitChar '\n' (myTrim csvText)).headD ""

/-- Tokenized data rows of the input: every line after the header. -/
def dataRows (csvText : String) : List (List String) :=
  ((splitChar '\n' (myTrim csvText)).tail).map parseCSVLine

/-- Model of the source function parseCSVData: resolve the schema from the
header (the only error path), run pass 1 to collect valid order ids and
order snapshots, then pass 2 to emit one ParsedOrder per qualifying line
item. -/
def parseCSVData (csvText : String) (filterCity : Option City) :
    Except String (List ParsedOrder) :=
  match resolveIndices (parseCSVLine (headerLine csvText)) with
  | Except.error e => Except.error e
  | Except.ok idx =>
      let ts := targetSource filterCity
      let rows := dataRows csvText
      let st := pass1 idx ts rows
      Except.ok (rows.filterMap (pass2Row idx st.1 st.2 rows))

/-- The proportional revenue allocation applied by the dashboard aggregation
(DashboardStats and ClassBreakdown): a line item receives its subtotal plus
its proportional share of the order tax, except that an order subtotal not
greater than 0 leaves the subtotal unchanged. -/
def allocatedRevenue (r : ParsedOrder) : ℚ :=
  if 0 < r.orderSubTotal then
    r.lineItemSubtotal + r.lineItemSubtotal / r.orderSubTotal * r.orderTaxAmount
  else r.lineItemSubtotal

/-- The snapshot of the first qualifying row carrying a given order id, the
specification-side description of what pass 1 stores (first-seen wins). -/
def firstSnap (idx : Indices) (ts : Option String) (rows : List (List String))
    (oid : String) : Option Snapshot :=
  rows.findSome? (fun v =>
    match rowQual idx ts v with
    | some (o, s) => if o = oid then some s else none
    | none => none)

end EFW

/-!  Concrete inputs used by witnesses and counterexamples.  -/

/-- The column indices resolved from the canonical header row below. -/
def idxStd : EFW.Indices := ⟨0, 1, 2, 3, 4, 5, 6, 7, 8, 9, 10, 11, 12, 13, 14⟩

/-- A canonical header row carrying all fifteen required columns. -/
def csvHeader : String :=
  "Internal order id,Customer name,Customer email,Customer phone,Status,Source name,Order date,Order time,Line item Name,Line item Quantity,Line item Price,Line item Subtotal,Sub total,Tax Amount,Total Amount"

/-- A two-line-item DC order: subtotal 20, tax 2, line subtotals 10 and 10. -/
def csvTwoItems : String :=
  csvHeader ++ "\n" ++
  "O1,Bob,bob@x.com,555,completed,Ebony Fit Weekend - DC,2024-01-01,10:00,YOGA,1,10,10,20,2,22" ++ "\n" ++
  "O1,Bob,bob@x.com,555,completed,Ebony Fit Weekend - DC,2024-01-01,10:00,DANCE,1,10,10,20,2,22"

/-- The first parsed record of csvTwoItems. -/
def recYOGA : EFW.ParsedOrder :=
  ⟨"O1", "Bob", "bob@x.com", "555", "completed", "Ebony Fit Weekend - DC",
   "2024-01-01", "10:00", "YOGA", 1, 10, 10, 20, 2, 22⟩

/-- The second parsed record of csvTwoItems. -/
def recDANCE : EFW.ParsedOrder :=
  ⟨"O1", "Bob", "bob@x.com", "555", "completed", "Ebony Fit Weekend - DC",
   "2024-01-01", "10:00", "DANCE", 1, 10, 10, 20, 2, 22⟩

/-- A completed DC order whose recorded subtotal is 0 while its tax is 1;
its single line item has subtotal 0, so the line subtotals sum to the order
subtotal, yet no tax can be allocated proportionally. -/
def csvZeroSub : String :=
  csvHeader ++ "\n" ++
  "O1,Bob,bob@x.com,555,completed,Ebony Fit Weekend - DC,2024-01-01,10:00,YOGA,1,0,0,0,1,1"

/-- The single parsed record of csvZeroSub. -/
def recZeroSub : EFW.ParsedOrder :=
  ⟨"O1", "Bob", "bob@x.com", "555", "completed", "Ebony Fit Weekend - DC",
   "2024-01-01", "10:00", "YOGA", 1, 0, 0, 0, 1, 1⟩

/-- An order whose primary row (first) carries a customer name but a blank
email, and whose continuation row (second) carries a blank name but a
non-blank email. -/
def csvBlankEmail : String :=
  csvHeader ++ "\n" ++
  "O1,Bob,,555,completed,Ebony Fit Weekend - DC,2024-01-01,10:00,YOGA,1,10,10,20,2,22" ++ "\n" ++
  "O1,,ann@x.com,,,,,,DANCE,1,10,10,20,2,22"

/-- A DC-qualifying order one of whose rows carries a Houston source name. -/
def csvMixedSource : String :=
  csvHeader ++ "\n" ++
  "O1,Bob,bob@x.com,555,completed,Ebony Fit Weekend - DC,2024-01-01,10:00,YOGA,1,10,10,20,2,22" ++ "\n" ++
  "O1,Ann,ann@x.com,556,completed,Ebony Fit Weekend - Houston,2024-01-01,10:00,DANCE,1,10,10,20,2,22"

/-- An export whose only data row carries the unknown Houston source. -/
def csvHouston : String :=
  csvHeader ++ "\n" ++
  "O1,Bob,bob@x.com,555,completed,Ebony Fit Weekend - Houston,2024-01-01,10:00,YOGA,1,10,10,20,2,22"

/-- An export with one DC order and one Atlanta order. -/
def csvBothCities : String :=
  csvHeader ++ "\n" ++
  "O1,Bob,bob@x.com,555,completed,Ebony Fit Weekend - DC,2024-01-01,10:00,YOGA,1,10,10,20,2,22" ++ "\n" ++
  "O2,Ann,ann@x.com,556,completed,Ebony Fit Weekend - Atlanta,2024-01-01,10:00,DANCE,1,10,10,20,2,22"

/-- A default record used only to select elements of concrete outputs. -/
def recDefault : EFW.ParsedOrder :=
  ⟨"", "", "", "", "", "", "", "", "", 0, 0, 0, 0, 0, 0⟩

/-- A header missing the Customer email column. -/
def csvNoEmail : String :=
  "Internal order id,Customer name,Customer phone,Status,Source name,Order date,Order time,Line item Name,Line item Quantity,Line item Price,Line item Subtotal,Sub total,Tax Amount,Total Amount" ++
  "\n" ++ "O1,Bob,555,completed,Ebony Fit Weekend - DC,2024-01-01,10:00,YOGA,1,10,10,20,2,22"

/-- The continuation row of csvBlankEmail (blank name, non-blank email). -/
def rowCont : List String := (EFW.dataRows csvBlankEmail).getD 1 []

/-- The primary row of csvBlankEmail (name Bob, blank email). -/
def rowPrim : List String := (EFW.dataRows csvBlankEmail).getD 0 []

/-- The order snapshot of the csvBlankEmail order. -/
def snapO1 : EFW.Snapshot := ⟨20, 2, 22, "Ebony Fit Weekend - DC"⟩

/-- The fifteen required column labels, in the source's resolution order. -/
def requiredLabels : List String :=
  ["Internal order id", "Customer name", "Customer email", "Customer phone",
   "Status", "Source name", "Order date", "Order time", "Line item Name",
   "Line item Quantity", "Line item Price", "Line item Subtotal",
   "Sub total", "Tax Amount", "Total Amount"]

/-- The error message raised for a missing column label. -/
def colError (label : String) : String :=
  "Column \"" ++ label ++ "\" not found in CSV"

/-- The specification-side reading of schema resolution: every required
logical field is mapped to the first header column whose lowercased text
contains the field's label, lowercased, as a substring. -/
def indicesSpec (headers : List String) (idx : EFW.Indices) : Prop :=
  headers.findIdx? (EFW.colMatches "Internal order id") = some idx.orderId ∧
  headers.findIdx? (EFW.colMatches "Customer name") = some idx.customerName ∧
  headers.findIdx? (EFW.colMatches "Customer email") = some idx.customerEmail ∧
  headers.findIdx? (EFW.colMatches "Customer phone") = some idx.customerPhone ∧
  headers.findIdx? (EFW.colMatches "Status") = some idx.status ∧
  headers.findIdx? (EFW.colMatches "Source name") = some idx.sourceName ∧
  headers.findIdx? (EFW.colMatches "Order date") = some idx.orderDate ∧
  headers.findIdx? (EFW.colMatches "Order time") = some idx.orderTime ∧
  headers.findIdx? (EFW.colMatches "Line item Name") = some idx.className ∧
  headers.findIdx? (EFW.colMatches "Line item Quantity") = some idx.quantity ∧
  headers.findIdx? (EFW.colMatches "Line item Price") = some idx.price ∧
  headers.findIdx? (EFW.colMatches "Line item Subtotal") =
    some idx.lineItemSubtotal ∧
  headers.findIdx? (EFW.colMatches "Sub total") = some idx.orderSubTotal ∧
  headers.findIdx? (EFW.colMatches "Tax Amount") = some idx.orderTaxAmount ∧
  headers.findIdx? (EFW.colMatches "Total Amount") = some idx.orderTotalAmount

section TrimLemmas

open EFW

variable {α : Type _} (p : α → Bool)

theorem dropWhile_dropWhile (l : List α) :
    (l.dropWhile p).dropWhile p = l.dropWhile p := by
  induction l with
  | nil => rfl
  | cons a l ih =>
      by_cases h : p a <;> simp [List.dropWhile_cons, h, ih]

theorem dropWhile_suffix (l : List α) : l.dropWhile p <:+ l := by
  induction l with
  | nil => exact List.suffix_refl _
  | cons a l ih =>
      by_cases h : p a
      · simpa [List.dropWhile_cons, h] using ih.trans (List.suffix_cons a l)
      · simp [List.dropWhile_cons, h]

theorem head?_dropWhile {l : List α} {c : α}
    (h : (l.dropWhile p).head? = some c) : p c = false := by
  induction l with
  | nil => simp at h
  | cons a l ih =>
      by_cases ha : p a
      · exact ih (by simpa [List.dropWhile_cons, ha] using h)
      · simp [List.dropWhile_cons, ha] at h
        subst h
        simpa using ha

theorem dropWhile_eq_self_of_head? {l : List α}
    (h : ∀ c, l.head? = some c → p c = false) : l.dropWhile p = l := by
  cases l with
  | nil => rfl
  | cons a l => simp [List.dropWhile_cons, h a rfl]

theorem head?_of_prefix {l t : List α} (h : l <+: t) (hne : l ≠ []) :
    t.head? = l.head? := by
  obtain ⟨s, rfl⟩ := h
  cases l with
  | nil => exact absurd rfl hne
  | cons a l => simp

theorem trimRight_pre (l : List α) :
    (l.reverse.dropWhile p).reverse <+: l := by
  have h2 : (l.reverse.dropWhile p).reverse <+: l.reverse.reverse :=
    List.reverse_prefix.mpr (dropWhile_suffix p l.reverse)
  simpa using h2

theorem trimChars_dropWhile (l : List Char) :
    (trimChars l).dropWhile Char.isWhitespace = trimChars l := by
  apply dropWhile_eq_self_of_head?
  intro c hc
  have hpre : trimChars l <+: l.dropWhile Char.isWhitespace :=
    trimRight_pre Char.isWhitespace (l.dropWhile Char.isWhitespace)
  have hne : trimChars l ≠ [] := by
    intro h
    rw [h] at hc
    simp at hc
  have hh := head?_of_prefix hpre hne
  rw [hc] at hh
  exact head?_dropWhile Char.isWhitespace hh

theorem trimChars_idem (l : List Char) :
    trimChars (trimChars l) = trimChars l := by
  have h1 : trimChars (trimChars l) =
      (((trimChars l).dropWhile Char.isWhitespace).reverse.dropWhile
        Char.isWhitespace).reverse := rfl
  rw [h1, trimChars_dropWhile]
  show ((((l.dropWhile Char.isWhitespace).reverse.dropWhile
      Char.isWhitespace).reverse).reverse.dropWhile Char.isWhitespace).reverse
      = trimChars l
  rw [List.reverse_reverse, dropWhile_dropWhile]
  rfl

theorem myTrim_idem (s : String) : myTrim (myTrim s) = myTrim s :=
  congrArg String.mk (trimChars_idem s.data)

theorem parseCSVLineAux_len (n : Nat) :
    ∀ (l : List Char), l.length ≤ n → ∀ (q : Bool) (cur : List Char),
      1 ≤ (parseCSVLineAux l q cur).length := by
  induction n with
  | zero =>
      intro l hl q cur
      have h0 : l = [] := by
        cases l with
        | nil => rfl
        | cons a t => simp at hl
      subst h0
      simp [parseCSVLineAux]
  | succ n ih =>
      intro l hl q cur
      rw [parseCSVLineAux.eq_def]
      split
      all_goals try split
      all_goals first
        | simp
        | (refine ih _ ?_ _ _
           simp only [List.length_cons] at hl
           omega)

end TrimLemmas

section PassLemmas

open EFW

theorem lookupSnap_append (l1 l2 : List (String × Snapshot)) (oid : String) :
    lookupSnap (l1 ++ l2) oid = (lookupSnap l1 oid).or (lookupSnap l2 oid) := by
  unfold EFW.lookupSnap
  rw [List.find?_append]
  cases l1.find? (fun p => p.1 == oid) <;> simp [Option.or]

theorem lookupSnap_singleton (o oid : String) (s : Snapshot) :
    lookupSnap [(o, s)] oid = if o = oid then some s else none := by
  by_cases h : o = oid <;>
    simp [EFW.lookupSnap, List.find?_cons, h]

theorem firstSnap_cons (idx : Indices) (ts : Option String)
    (v : List String) (rows : List (List String)) (oid : String) :
    firstSnap idx ts (v :: rows) oid =
      match rowQual idx ts v with
      | some (o, s) => if o = oid then some s else firstSnap idx ts rows oid
      | none => firstSnap idx ts rows oid := by
  simp only [EFW.firstSnap, List.findSome?_cons]
  cases hq : rowQual idx ts v with
  | none => rfl
  | some p =>
      obtain ⟨o, s⟩ := p
      by_cases ho : o = oid <;> simp [ho]

theorem pass1Step_fst_snd (idx : Indices) (ts : Option String)
    (st : List String × List (String × Snapshot)) (v : List String)
    (o : String) (s : Snapshot) (hq : rowQual idx ts v = some (o, s)) :
    pass1Step idx ts st v =
      (o :: st.1, if (lookupSnap st.2 o).isSome then st.2
                  else st.2 ++ [(o, s)]) := by
  unfold EFW.pass1Step
  rw [hq]
  show (o :: st.1, match lookupSnap st.2 o with
       | some _ => st.2
       | none => st.2 ++ [(o, s)]) = _
  cases lookupSnap st.2 o <;> rfl

theorem pass1Step_skip (idx : Indices) (ts : Option String)
    (st : List String × List (String × Snapshot)) (v : List String)
    (hq : rowQual idx ts v = none) : pass1Step idx ts st v = st := by
  unfold EFW.pass1Step
  rw [hq]

theorem pass1_foldl_lookup_some (idx : Indices) (ts : Option String)
    (rows : List (List String)) :
    ∀ (st : List String × List (String × Snapshot)) (oid : String) (t : Snapshot),
      lookupSnap st.2 oid = some t →
      lookupSnap (rows.foldl (pass1Step idx ts) st).2 oid = some t := by
  induction rows with
  | nil => intro st oid t h; simpa using h
  | cons v rows ih =>
      intro st oid t h
      rw [List.foldl_cons]
      apply ih
      cases hq : rowQual idx ts v with
      | none => rw [pass1Step_skip idx ts st v hq]; exact h
      | some p =>
          obtain ⟨o, s⟩ := p
          rw [pass1Step_fst_snd idx ts st v o s hq]
          by_cases hl : (lookupSnap st.2 o).isSome
          · rw [if_pos hl]; exact h
          · rw [if_neg hl]
            show lookupSnap (st.2 ++ [(o, s)]) oid = some t
            rw [lookupSnap_append, h]
            rfl

theorem pass1_foldl_lookup_none (idx : Indices) (ts : Option String)
    (rows : List (List String)) :
    ∀ (st : List String × List (String × Snapshot)) (oid : String),
      lookupSnap st.2 oid = none →
      lookupSnap (rows.foldl (pass1Step idx ts) st).2 oid =
        firstSnap idx ts rows oid := by
  induction rows with
  | nil => intro st oid h; simpa [EFW.firstSnap] using h
  | cons v rows ih =>
      intro st oid h
      rw [List.foldl_cons]
      cases hq : rowQual idx ts v with
      | none =>
          have hfs : firstSnap idx ts (v :: rows) oid = firstSnap idx ts rows oid := by
            rw [firstSnap_cons, hq]
          rw [hfs, pass1Step_skip idx ts st v hq]
          exact ih st oid h
      | some p =>
          obtain ⟨o, s⟩ := p
          have hfs : firstSnap idx ts (v :: rows) oid =
              if o = oid then some s else firstSnap idx ts rows oid := by
            rw [firstSnap_cons, hq]
          rw [hfs, pass1Step_fst_snd idx ts st v o s hq]
          by_cases ho : o = oid
          · subst ho
            have hl : ¬ (lookupSnap st.2 o).isSome := by
              rw [h]
              simp
            rw [if_neg hl, if_pos rfl]
            apply pass1_foldl_lookup_some
            show lookupSnap (st.2 ++ [(o, s)]) o = some s
            rw [lookupSnap_append, h, lookupSnap_singleton, if_pos rfl]
            rfl
          · rw [if_neg ho]
            by_cases hl : (lookupSnap st.2 o).isSome
            · rw [if_pos hl]
              exact ih _ oid h
            · rw [if_neg hl]
              apply ih
              show lookupSnap (st.2 ++ [(o, s)]) oid = none
              rw [lookupSnap_append, h, lookupSnap_singleton, if_neg ho]
              rfl

theorem pass1_lookup (idx : Indices) (ts : Option String)
    (rows : List (List String)) (oid : String) :
    lookupSnap (pass1 idx ts rows).2 oid = firstSnap idx ts rows oid :=
  pass1_foldl_lookup_none idx ts rows ([], []) oid rfl

theorem pass2Row_some_spec (idx : Indices) (validIds : List String)
    (totals : List (String × Snapshot)) (rows : List (List String))
    (v : List String) (r : ParsedOrder)
    (h : pass2Row idx validIds totals rows v = some r) :
    r.orderId = getField v idx.orderId ∧
    lookupSnap totals (getField v idx.orderId) =
      some ⟨r.orderSubTotal, r.orderTaxAmount, r.orderTotalAmount, r.sourceName⟩ := by
  simp only [EFW.pass2Row] at h
  split at h
  · exact Option.noConfusion h
  · split at h
    · exact Option.noConfusion h
    · split at h
      · exact Option.noConfusion h
      · split at h
        · exact Option.noConfusion h
        · rename_i orderData heq
          repeat split at h
          all_goals first
            | exact Option.noConfusion h
            | (injection h with h
               subst h
               exact ⟨rfl, heq⟩)

theorem parseCSVData_ok_elim (csv : String) (city : Option City)
    (out : List ParsedOrder) (h : parseCSVData csv city = Except.ok out) :
    ∃ idx, resolveIndices (parseCSVLine (headerLine csv)) = Except.ok idx ∧
      out = (dataRows csv).filterMap
        (pass2Row idx (pass1 idx (targetSource city) (dataRows csv)).1
          (pass1 idx (targetSource city) (dataRows csv)).2 (dataRows csv)) := by
  unfold EFW.parseCSVData at h
  cases hE : resolveIndices (parseCSVLine (headerLine csv)) with
  | error e =>
      rw [hE] at h
      exact Except.noConfusion h
  | ok idx =>
      rw [hE] at h
      exact ⟨idx, rfl, (Except.ok.inj h).symm⟩

theorem mem_parse_output (csv : String) (city : Option City)
    (out : List ParsedOrder) (r : ParsedOrder)
    (h : parseCSVData csv city = Except.ok out) (hr : r ∈ out) :
    ∃ idx, resolveIndices (parseCSVLine (headerLine csv)) = Except.ok idx ∧
      ∃ v ∈ dataRows csv,
        pass2Row idx (pass1 idx (targetSource city) (dataRows csv)).1
          (pass1 idx (targetSource city) (dataRows csv)).2 (dataRows csv) v =
          some r := by
  obtain ⟨idx, hres, hout⟩ := parseCSVData_ok_elim csv city out h
  rw [hout] at hr
  rcases List.mem_filterMap.mp hr with ⟨v, hv, hpv⟩
  exact ⟨idx, hres, v, hv, hpv⟩

theorem rowQual_some_spec (idx : Indices) (ts : Option String)
    (v : List String) (o : String) (s : Snapshot)
    (h : rowQual idx ts v = some (o, s)) :
    o = getField v idx.orderId ∧
    s.sourceName = getField v idx.sourceName ∧
    isValidSource ts (getField v idx.sourceName) = true ∧
    myToLower (getField v idx.status) = "completed" := by
  simp only [EFW.rowQual] at h
  split at h
  · exact Option.noConfusion h
  · split at h
    · exact Option.noConfusion h
    · split at h
      · rename_i hcond
        injection h with h
        injection h with ho hs
        subst ho
        subst hs
        exact ⟨rfl, rfl, hcond.1, hcond.2⟩
      · exact Option.noConfusion h

theorem isValidSource_none_elim (s : String)
    (h : isValidSource none s = true) :
    s = "Ebony Fit Weekend - DC" ∨ s = "Ebony Fit Weekend - Atlanta" := by
  unfold EFW.isValidSource at h
  simpa using h

theorem firstSnap_some_elim (idx : Indices) (ts : Option String)
    (rows : List (List String)) (oid : String) (s : Snapshot)
    (h : firstSnap idx ts rows oid = some s) :
    ∃ v ∈ rows, rowQual idx ts v = some (oid, s) := by
  unfold EFW.firstSnap at h
  obtain ⟨v, hv, hf⟩ := List.exists_of_findSome?_eq_some h
  refine ⟨v, hv, ?_⟩
  cases hq : rowQual idx ts v with
  | none => rw [hq] at hf; exact Option.noConfusion hf
  | some p =>
      obtain ⟨o, t⟩ := p
      rw [hq] at hf
      have hf2 : (if o = oid then some t else none) = some s := hf
      by_cases ho : o = oid
      · subst ho
        rw [if_pos rfl] at hf2
        injection hf2 with hf2
        subst hf2
        rfl
      · rw [if_neg ho] at hf2
        exact Option.noConfusion hf2

theorem rowQual_none_of_wrong_source (idx : Indices) (t : String)
    (v : List String) (hne : getField v idx.sourceName ≠ t) :
    rowQual idx (some t) v = none := by
  simp only [EFW.rowQual]
  split
  · rfl
  · split
    · rfl
    · rw [if_neg (fun hc => hne (by simpa [EFW.isValidSource] using hc.1))]

theorem mem_parse_snapshot (csv : String) (city : Option City)
    (out : List ParsedOrder) (r : ParsedOrder)
    (h : parseCSVData csv city = Except.ok out) (hr : r ∈ out) :
    ∃ idx, resolveIndices (parseCSVLine (headerLine csv)) = Except.ok idx ∧
      firstSnap idx (targetSource city) (dataRows csv) r.orderId =
        some ⟨r.orderSubTotal, r.orderTaxAmount, r.orderTotalAmount, r.sourceName⟩ := by
  obtain ⟨idx, hres, v, hv, hpv⟩ := mem_parse_output csv city out r h hr
  obtain ⟨hid, hsnap⟩ := pass2Row_some_spec _ _ _ _ _ _ hpv
  refine ⟨idx, hres, ?_⟩
  rw [hid, ← pass1_lookup]
  exact hsnap

theorem resolveCustomer_fallback_none (idx : Indices)
    (rows : List (List String)) (oid name email phone status date time : String)
    (hblank : name = "" ∨ email = "")
    (hfb : findFallback idx rows oid = none) :
    resolveCustomer idx rows oid name email phone status date time =
      (name, email, phone, status, date, time) := by
  unfold EFW.resolveCustomer
  rw [if_pos hblank, hfb]

theorem resolveCustomer_fallback_some (idx : Indices)
    (rows : List (List String)) (oid name email phone status date time : String)
    (fb : List String) (hblank : name = "" ∨ email = "")
    (hfb : findFallback idx rows oid = some fb) :
    resolveCustomer idx rows oid name email phone status date time =
      (getField fb idx.customerName,
       if getField fb idx.customerEmail = "" then email
       else getField fb idx.customerEmail,
       getField fb idx.customerPhone, getField fb idx.status,
       getField fb idx.orderDate, getField fb idx.orderTime) := by
  unfold EFW.resolveCustomer
  rw [if_pos hblank, hfb]

theorem exceptBind_ok {ε α β : Type _} (x : Except ε α) (f : α → Except ε β)
    (b : β) :
    (x >>= f) = Except.ok b ↔ ∃ a, x = Except.ok a ∧ f a = Except.ok b := by
  cases x <;> simp [Bind.bind, Except.bind]

theorem exceptBind_error {ε α β : Type _} (x : Except ε α)
    (f : α → Except ε β) (e : ε) :
    (x >>= f) = Except.error e ↔
      x = Except.error e ∨ ∃ a, x = Except.ok a ∧ f a = Except.error e := by
  cases x <;> simp [Bind.bind, Except.bind]

theorem getColumnIndex_ok_iff (headers : List String) (label : String)
    (i : Nat) :
    getColumnIndex headers label = Except.ok i ↔
      headers.findIdx? (colMatches label) = some i := by
  unfold EFW.getColumnIndex
  cases hf : headers.findIdx? (colMatches label) <;> simp

theorem getColumnIndex_error_iff (headers : List String) (label : String)
    (e : String) :
    getColumnIndex headers label = Except.error e ↔
      headers.findIdx? (colMatches label) = none ∧ e = colError label := by
  unfold EFW.getColumnIndex
  cases hf : headers.findIdx? (colMatches label) <;>
    simp [colError, eq_comm]

theorem resolveIndices_ok_spec (headers : List String) (idx : Indices)
    (h : resolveIndices headers = Except.ok idx) : indicesSpec headers idx := by
  unfold EFW.resolveIndices at h
  rw [exceptBind_ok] at h
  obtain ⟨i1, h1, h⟩ := h
  rw [exceptBind_ok] at h
  obtain ⟨i2, h2, h⟩ := h
  rw [exceptBind_ok] at h
  obtain ⟨i3, h3, h⟩ := h
  rw [exceptBind_ok] at h
  obtain ⟨i4, h4, h⟩ := h
  rw [exceptBind_ok] at h
  obtain ⟨i5, h5, h⟩ := h
  rw [exceptBind_ok] at h
  obtain ⟨i6, h6, h⟩ := h
  rw [exceptBind_ok] at h
  obtain ⟨i7, h7, h⟩ := h
  rw [exceptBind_ok] at h
  obtain ⟨i8, h8, h⟩ := h
  rw [exceptBind_ok] at h
  obtain ⟨i9, h9, h⟩ := h
  rw [exceptBind_ok] at h
  obtain ⟨i10, h10, h⟩ := h
  rw [exceptBind_ok] at h
  obtain ⟨i11, h11, h⟩ := h
  rw [exceptBind_ok] at h
  obtain ⟨i12, h12, h⟩ := h
  rw [exceptBind_ok] at h
  obtain ⟨i13, h13, h⟩ := h
  rw [exceptBind_ok] at h
  obtain ⟨i14, h14, h⟩ := h
  rw [exceptBind_ok] at h
  obtain ⟨i15, h15, h⟩ := h
  have hidx := Except.ok.inj h
  subst hidx
  exact ⟨(getColumnIndex_ok_iff _ _ _).mp h1,
    (getColumnIndex_ok_iff _ _ _).mp h2,
    (getColumnIndex_ok_iff _ _ _).mp h3,
    (getColumnIndex_ok_iff _ _ _).mp h4,
    (getColumnIndex_ok_iff _ _ _).mp h5,
    (getColumnIndex_ok_iff _ _ _).mp h6,
    (getColumnIndex_ok_iff _ _ _).mp h7,
    (getColumnIndex_ok_iff _ _ _).mp h8,
    (getColumnIndex_ok_iff _ _ _).mp h9,
    (getColumnIndex_ok_iff _ _ _).mp h10,
    (getColumnIndex_ok_iff _ _ _).mp h11,
    (getColumnIndex_ok_iff _ _ _).mp h12,
    (getColumnIndex_ok_iff _ _ _).mp h13,
    (getColumnIndex_ok_iff _ _ _).mp h14,
    (getColumnIndex_ok_iff _ _ _).mp h15⟩

theorem resolveIndices_error_spec (headers : List String) (e : String)
    (h : resolveIndices headers = Except.error e) :
    ∃ label ∈ requiredLabels,
      headers.findIdx? (colMatches label) = none ∧ e = colError label := by
  unfold EFW.resolveIndices at h
  rw [exceptBind_error] at h
  rcases h with h | ⟨i1, h1, h⟩
  · obtain ⟨hn, he⟩ := (getColumnIndex_error_iff _ _ _).mp h
    exact ⟨"Internal order id", by decide, hn, he⟩
  rw [exceptBind_error] at h
  rcases h with h | ⟨i2, h2, h⟩
  · obtain ⟨hn, he⟩ := (getColumnIndex_error_iff _ _ _).mp h
    exact ⟨"Customer name", by decide, hn, he⟩
  rw [exceptBind_error] at h
  rcases h with h | ⟨i3, h3, h⟩
  · obtain ⟨hn, he⟩ := (getColumnIndex_error_iff _ _ _).mp h
    exact ⟨"Customer email", by decide, hn, he⟩
  rw [exceptBind_error] at h
  rcases h with h | ⟨i4, h4, h⟩
  · obtain ⟨hn, he⟩ := (getColumnIndex_error_iff _ _ _).mp h
    exact ⟨"Customer phone", by decide, hn, he⟩
  rw [exceptBind_error] at h
  rcases h with h | ⟨i5, h5, h⟩
  · obtain ⟨hn, he⟩ := (getColumnIndex_error_iff _ _ _).mp h
    exact ⟨"Status", by decide, hn, he⟩
  rw [exceptBind_error] at h
  rcases h with h | ⟨i6, h6, h⟩
  · obtain ⟨hn, he⟩ := (getColumnIndex_error_iff _ _ _).mp h
    exact ⟨"Source name", by decide, hn, he⟩
  rw [exceptBind_error] at h
  rcases h with h | ⟨i7, h7, h⟩
  · obtain ⟨hn, he⟩ := (getColumnIndex_error_iff _ _ _).mp h
    exact ⟨"Order date", by decide, hn, he⟩
  rw [exceptBind_error] at h
  rcases h with h | ⟨i8, h8, h⟩
  · obtain ⟨hn, he⟩ := (getColumnIndex_error_iff _ _ _).mp h
    exact ⟨"Order time", by decide, hn, he⟩
  rw [exceptBind_error] at h
  rcases h with h | ⟨i9, h9, h⟩
  · obtain ⟨hn, he⟩ := (getColumnIndex_error_iff _ _ _).mp h
    exact ⟨"Line item Name", by decide, hn, he⟩
  rw [exceptBind_error] at h
  rcases h with h | ⟨i10, h10, h⟩
  · obtain ⟨hn, he⟩ := (getColumnIndex_error_iff _ _ _).mp h
    exact ⟨"Line item Quantity", by decide, hn, he⟩
  rw [exceptBind_error] at h
  rcases h with h | ⟨i11, h11, h⟩
  · obtain ⟨hn, he⟩ := (getColumnIndex_error_iff _ _ _).mp h
    exact ⟨"Line item Price", by decide, hn, he⟩
  rw [exceptBind_error] at h
  rcases h with h | ⟨i12, h12, h⟩
  · obtain ⟨hn, he⟩ := (getColumnIndex_error_iff _ _ _).mp h
    exact ⟨"Line item Subtotal", by decide, hn, he⟩
  rw [exceptBind_error] at h
  rcases h with h | ⟨i13, h13, h⟩
  · obtain ⟨hn, he⟩ := (getColumnIndex_error_iff _ _ _).mp h
    exact ⟨"Sub total", by decide, hn, he⟩
  rw [exceptBind_error] at h
  rcases h with h | ⟨i14, h14, h⟩
  · obtain ⟨hn, he⟩ := (getColumnIndex_error_iff _ _ _).mp h
    exact ⟨"Tax Amount", by decide, hn, he⟩
  rw [exceptBind_error] at h
  rcases h with h | ⟨i15, h15, h⟩
  · obtain ⟨hn, he⟩ := (getColumnIndex_error_iff _ _ _).mp h
    exact ⟨"Total Amount", by decide, hn, he⟩
  exact Except.noConfusion h

theorem parse_same_order_same_totals (csv : String) (city : Option City)
    (out : List ParsedOrder) (r1 r2 : ParsedOrder)
    (hok : parseCSVData csv city = Except.ok out)
    (h1 : r1 ∈ out) (h2 : r2 ∈ out) (hid : r1.orderId = r2.orderId) :
    r1.orderSubTotal = r2.orderSubTotal ∧
    r1.orderTaxAmount = r2.orderTaxAmount := by
  obtain ⟨idx1, hres1, hs1⟩ := mem_parse_snapshot csv city out r1 hok h1
  obtain ⟨idx2, hres2, hs2⟩ := mem_parse_snapshot csv city out r2 hok h2
  have hi : idx2 = idx1 := Except.ok.inj (hres2.symm.trans hres1)
  subst hi
  rw [hid] at hs1
  have hss := Option.some.inj (hs1.symm.trans hs2)
  exact ⟨congrArg Snapshot.orderSubTotal hss,
         congrArg Snapshot.orderTaxAmount hss⟩

theorem sum_alloc_list (l : List ℚ) (S T : ℚ) :
    (l.map (fun s => s + s / S * T)).sum = l.sum + l.sum / S * T := by
  induction l with
  | nil => simp
  | cons a l ih =>
      simp only [List.map_cons, List.sum_cons, ih]
      ring

end PassLemmas

/-- C2: the stored order snapshot for every order id is the one built from
the first qualifying row carrying that id (later qualifying rows never
overwrite it), and every emitted ParsedOrder copies orderSubTotal,
orderTaxAmount, orderTotalAmount and sourceName verbatim from that
first-seen snapshot rather than from its own row. -/
theorem c2_snapshot_first_seen (csv : String) (city : Option EFW.City)
    (out : List EFW.ParsedOrder) (idx : EFW.Indices)
    (hok : EFW.parseCSVData csv city = Except.ok out)
    (hres : EFW.resolveIndices (EFW.parseCSVLine (EFW.headerLine csv)) =
      Except.ok idx) :
    (∀ oid : String,
      EFW.lookupSnap
        (EFW.pass1 idx (EFW.targetSource city) (EFW.dataRows csv)).2 oid =
        EFW.firstSnap idx (EFW.targetSource city) (EFW.dataRows csv) oid) ∧
    ∀ r ∈ out,
      EFW.firstSnap idx (EFW.targetSource city) (EFW.dataRows csv) r.orderId =
        some ⟨r.orderSubTotal, r.orderTaxAmount, r.orderTotalAmount,
              r.sourceName⟩ := by
  refine ⟨fun oid => pass1_lookup idx (EFW.targetSource city)
    (EFW.dataRows csv) oid, fun r hr => ?_⟩
  obtain ⟨idx2, hres2, hsnap⟩ := mem_parse_snapshot csv city out r hok hr
  have hidx : idx2 = idx := Except.ok.inj (hres2.symm.trans hres)
  rw [hidx] at hsnap
  exact hsnap

/-- Witness for C2 at the concrete two-line-item DC export: the first
emitted record copies its four order-level values from the first qualifying
row's snapshot. -/
theorem c2_witness :
    EFW.firstSnap idxStd (EFW.targetSource (some EFW.City.dc))
      (EFW.dataRows csvTwoItems) recYOGA.orderId =
      some ⟨recYOGA.orderSubTotal, recYOGA.orderTaxAmount,
            recYOGA.orderTotalAmount, recYOGA.sourceName⟩ :=
  (c2_snapshot_first_seen csvTwoItems (some EFW.City.dc)
    [recYOGA, recDANCE] idxStd (by decide) (by decide)).2
    recYOGA (by decide)

/-- C3: for a data row that passes the structural guards of pass 1 (enough
fields, non-blank order id and source name), qualification holds exactly
when the source name matches the requested filter label (or one of the two
known city labels when no filter is given) and the status, lowercased,
equals completed; the three concrete status spellings lowercase to the same
string. -/
theorem c3_row_qualification (idx : EFW.Indices) (ts : Option String)
    (v : List String)
    (hlen : ¬ v.length < EFW.maxIndex idx + 1)
    (hid : EFW.getField v idx.orderId ≠ "")
    (hsrc : EFW.getField v idx.sourceName ≠ "") :
    ((EFW.rowQual idx ts v).isSome = true ↔
      ((match ts with
        | some t => EFW.getField v idx.sourceName = t
        | none =>
            EFW.getField v idx.sourceName = "Ebony Fit Weekend - DC" ∨
            EFW.getField v idx.sourceName = "Ebony Fit Weekend - Atlanta") ∧
       EFW.myToLower (EFW.getField v idx.status) = "completed")) ∧
    EFW.myToLower "Completed" = "completed" ∧
    EFW.myToLower "completed" = "completed" ∧
    EFW.myToLower "COMPLETED" = "completed" := by
  refine ⟨?_, by decide, by decide, by decide⟩
  simp only [EFW.rowQual]
  rw [if_neg hlen, if_neg (by
    intro hor
    rcases hor with hc | hc
    · exact hid hc
    · exact hsrc hc)]
  constructor
  · intro h
    split at h
    · rename_i hcond
      refine ⟨?_, hcond.2⟩
      have hv := hcond.1
      cases ts with
      | some t =>
          simpa [EFW.isValidSource] using hv
      | none =>
          simpa [EFW.isValidSource] using hv
    · simp at h
  · intro hcond
    rw [if_pos ?_]
    · rfl
    · refine ⟨?_, hcond.2⟩
      cases ts with
      | some t => simpa [EFW.isValidSource] using hcond.1
      | none => simpa [EFW.isValidSource] using hcond.1

/-- Witness for C3 at a concrete completed Atlanta row with no filter. -/
theorem c3_witness :
    ((EFW.rowQual idxStd none
        ["O9", "Bob", "b@x.com", "5", "COMPLETED",
         "Ebony Fit Weekend - Atlanta", "d", "t", "YOGA", "1", "10", "10",
         "20", "2", "22"]).isSome = true ↔
      ((EFW.getField
          ["O9", "Bob", "b@x.com", "5", "COMPLETED",
           "Ebony Fit Weekend - Atlanta", "d", "t", "YOGA", "1", "10", "10",
           "20", "2", "22"] idxStd.sourceName = "Ebony Fit Weekend - DC" ∨
        EFW.getField
          ["O9", "Bob", "b@x.com", "5", "COMPLETED",
           "Ebony Fit Weekend - Atlanta", "d", "t", "YOGA", "1", "10", "10",
           "20", "2", "22"] idxStd.sourceName = "Ebony Fit Weekend - Atlanta") ∧
       EFW.myToLower (EFW.getField
          ["O9", "Bob", "b@x.com", "5", "COMPLETED",
           "Ebony Fit Weekend - Atlanta", "d", "t", "YOGA", "1", "10", "10",
           "20", "2", "22"] idxStd.status) = "completed")) ∧
    EFW.myToLower "Completed" = "completed" ∧
    EFW.myToLower "completed" = "completed" ∧
    EFW.myToLower "COMPLETED" = "completed" :=
  c3_row_qualification idxStd none
    ["O9", "Bob", "b@x.com", "5", "COMPLETED", "Ebony Fit Weekend - Atlanta",
     "d", "t", "YOGA", "1", "10", "10", "20", "2", "22"]
    (by decide) (by decide) (by decide)

/-- C1 counterexample: the parsed order of csvZeroSub is fully represented
in the output (its line subtotals sum to its orderSubTotal of 0), yet the
summed allocated revenue is 0 while orderSubTotal + orderTaxAmount is 1,
because the allocator returns the subtotal unchanged when orderSubTotal is
not greater than 0. -/
theorem c1_counterexample :
    EFW.parseCSVData csvZeroSub (some EFW.City.dc) = Except.ok [recZeroSub] ∧
    (([recZeroSub].filter (fun r => r.orderId == recZeroSub.orderId)).map
        (fun r => r.lineItemSubtotal)).sum = recZeroSub.orderSubTotal ∧
    (([recZeroSub].filter (fun r => r.orderId == recZeroSub.orderId)).map
        EFW.allocatedRevenue).sum ≠
      recZeroSub.orderSubTotal + recZeroSub.orderTaxAmount := by
  refine ⟨by decide, ?_, ?_⟩
  · simp [recZeroSub]
  · simp [recZeroSub, EFW.allocatedRevenue]

/-- C1 (amended): for every order appearing in the parser's output whose
line-item subtotals sum to its orderSubTotal and whose orderSubTotal is
positive, the allocated revenues of its line items sum exactly (over the
rationals) to orderSubTotal + orderTaxAmount; the degenerate
orderSubTotal-not-positive branch of the allocator breaks the identity when
the tax is nonzero (see the counterexample). -/
theorem c1_allocation_sum (csv : String) (city : Option EFW.City)
    (out : List EFW.ParsedOrder) (r0 : EFW.ParsedOrder)
    (hok : EFW.parseCSVData csv city = Except.ok out)
    (hr0 : r0 ∈ out)
    (hsum : ((out.filter (fun r => r.orderId == r0.orderId)).map
        (fun r => r.lineItemSubtotal)).sum = r0.orderSubTotal)
    (hpos : 0 < r0.orderSubTotal) :
    ((out.filter (fun r => r.orderId == r0.orderId)).map
        EFW.allocatedRevenue).sum =
      r0.orderSubTotal + r0.orderTaxAmount := by
  have hmem : ∀ r ∈ out.filter (fun r => r.orderId == r0.orderId),
      r.orderSubTotal = r0.orderSubTotal ∧
      r.orderTaxAmount = r0.orderTaxAmount := by
    intro r hr
    rw [List.mem_filter] at hr
    exact parse_same_order_same_totals csv city out r r0 hok hr.1 hr0
      (by simpa using hr.2)
  have hmap : (out.filter (fun r => r.orderId == r0.orderId)).map
      EFW.allocatedRevenue =
      ((out.filter (fun r => r.orderId == r0.orderId)).map
        (fun r => r.lineItemSubtotal)).map
        (fun s => s + s / r0.orderSubTotal * r0.orderTaxAmount) := by
    rw [List.map_map]
    apply List.map_congr_left
    intro r hr
    obtain ⟨hS, hT⟩ := hmem r hr
    show EFW.allocatedRevenue r =
      r.lineItemSubtotal +
        r.lineItemSubtotal / r0.orderSubTotal * r0.orderTaxAmount
    unfold EFW.allocatedRevenue
    rw [hS, hT, if_pos hpos]
  rw [hmap, sum_alloc_list, hsum, div_self (ne_of_gt hpos), one_mul]

/-- Witness for the amended C1 at the two-line-item DC export: allocated
revenues 11 and 11 sum to the order's 20 + 2. -/
theorem c1_witness :
    (([recYOGA, recDANCE].filter (fun r => r.orderId == recYOGA.orderId)).map
        EFW.allocatedRevenue).sum =
      recYOGA.orderSubTotal + recYOGA.orderTaxAmount :=
  c1_allocation_sum csvTwoItems (some EFW.City.dc) [recYOGA, recDANCE]
    recYOGA (by decide) (by decide)
    (by simp [recYOGA, recDANCE]; norm_num)
    (by decide)

/-- C4 counterexample: csvBlankEmail's continuation row has a blank customer
name, its fallback row (the primary row) has a blank email ("Bob" with no
email), yet the parser emits a record keeping the continuation row's own
email ann@x.com instead of taking the blank fallback email and dropping the
row as the claim dictates. -/
theorem c4_counterexample :
    (EFW.parseCSVData csvBlankEmail none).map
        (fun l => l.map (fun r => (r.customerName, r.customerEmail))) =
      Except.ok [("Bob", "ann@x.com")] ∧
    EFW.getField ((EFW.dataRows csvBlankEmail).getD 1 [])
        idxStd.customerName = "" ∧
    (EFW.findFallback idxStd (EFW.dataRows csvBlankEmail) "O1").map
        (fun fb => EFW.getField fb idxStd.customerEmail) = some "" ∧
    ("ann@x.com" : String) ≠ "" :=
  ⟨by decide, by decide, by decide, by decide⟩

/-- C4 (amended): in pass 2, for a row whose customer name or email is
blank, an emitted record takes customer name, phone, status, order date and
order time from the first input row sharing the order id with a non-blank
customer name, and takes the email from that row only when non-blank there,
otherwise keeping the row's own email; the row is dropped when no such
fallback row exists, or when the row's own email and the fallback row's
email are both blank. -/
theorem c4_customer_fallback (idx : EFW.Indices) (validIds : List String)
    (totals : List (String × EFW.Snapshot)) (rows : List (List String))
    (v : List String)
    (hblank : EFW.getField v idx.customerName = "" ∨
      EFW.getField v idx.customerEmail = "") :
    (∀ r : EFW.ParsedOrder,
      EFW.pass2Row idx validIds totals rows v = some r →
      ∃ fb, EFW.findFallback idx rows (EFW.getField v idx.orderId) = some fb ∧
        r.customerName = EFW.getField fb idx.customerName ∧
        r.customerEmail = (if EFW.getField fb idx.customerEmail = ""
          then EFW.getField v idx.customerEmail
          else EFW.getField fb idx.customerEmail) ∧
        r.customerPhone = EFW.getField fb idx.customerPhone ∧
        r.status = EFW.getField fb idx.status ∧
        r.orderDate = EFW.getField fb idx.orderDate ∧
        r.orderTime = EFW.getField fb idx.orderTime ∧
        r.customerName ≠ "" ∧ r.customerEmail ≠ "") ∧
    ((EFW.findFallback idx rows (EFW.getField v idx.orderId) = none ∨
      (EFW.getField v idx.customerEmail = "" ∧
        ∃ fb, EFW.findFallback idx rows (EFW.getField v idx.orderId) =
            some fb ∧
          EFW.getField fb idx.customerEmail = "")) →
      EFW.pass2Row idx validIds totals rows v = none) := by
  constructor
  · intro r hr
    simp only [EFW.pass2Row] at hr
    split at hr
    · exact Option.noConfusion hr
    · split at hr
      · exact Option.noConfusion hr
      · split at hr
        · exact Option.noConfusion hr
        · split at hr
          · exact Option.noConfusion hr
          · rename_i orderData hlk
            split at hr
            · exact Option.noConfusion hr
            · rename_i hkeep
              injection hr with hr
              subst hr
              cases hfb : EFW.findFallback idx rows
                  (EFW.getField v idx.orderId) with
              | none =>
                  exfalso
                  apply hkeep
                  rw [resolveCustomer_fallback_none idx rows _ _ _ _ _ _ _
                    hblank hfb]
                  exact hblank
              | some fb =>
                  have hrc := resolveCustomer_fallback_some idx rows
                    (EFW.getField v idx.orderId)
                    (EFW.getField v idx.customerName)
                    (EFW.getField v idx.customerEmail)
                    (EFW.getField v idx.customerPhone)
                    (EFW.getField v idx.status)
                    (EFW.getField v idx.orderDate)
                    (EFW.getField v idx.orderTime) fb hblank hfb
                  rw [hrc] at hkeep
                  push_neg at hkeep
                  refine ⟨fb, rfl, ?_, ?_, ?_, ?_, ?_, ?_, ?_, ?_⟩
                  · simp only [hrc]
                  · simp only [hrc]
                  · simp only [hrc]
                  · simp only [hrc]
                  · simp only [hrc]
                  · simp only [hrc]
                  · simp only [hrc]
                    exact hkeep.1
                  · simp only [hrc]
                    exact hkeep.2
  · intro hdrop
    simp only [EFW.pass2Row]
    split
    · rfl
    · split
      · rfl
      · split
        · rfl
        · split
          · rfl
          · rename_i orderData hlk
            have hc : (EFW.resolveCustomer idx rows
                (EFW.getField v idx.orderId)
                (EFW.getField v idx.customerName)
                (EFW.getField v idx.customerEmail)
                (EFW.getField v idx.customerPhone)
                (EFW.getField v idx.status)
                (EFW.getField v idx.orderDate)
                (EFW.getField v idx.orderTime)).1 = "" ∨
                (EFW.resolveCustomer idx rows
                (EFW.getField v idx.orderId)
                (EFW.getField v idx.customerName)
                (EFW.getField v idx.customerEmail)
                (EFW.getField v idx.customerPhone)
                (EFW.getField v idx.status)
                (EFW.getField v idx.orderDate)
                (EFW.getField v idx.orderTime)).2.1 = "" := by
              rcases hdrop with hfb | ⟨hve, fb, hfb, hfbe⟩
              · rw [resolveCustomer_fallback_none idx rows _ _ _ _ _ _ _
                  hblank hfb]
                exact hblank
              · rw [resolveCustomer_fallback_some idx rows _ _ _ _ _ _ _
                  fb hblank hfb]
                right
                show (if EFW.getField fb idx.customerEmail = ""
                  then EFW.getField v idx.customerEmail
                  else EFW.getField fb idx.customerEmail) = ""
                rw [if_pos hfbe]
                exact hve
            rw [if_pos hc]

/-- Witness for the amended C4: the primary row of csvBlankEmail has a
blank email, its fallback row (itself) also has a blank email, so pass 2
drops it. -/
theorem c4_witness :
    EFW.pass2Row idxStd ["O1"] [("O1", snapO1)]
      (EFW.dataRows csvBlankEmail) rowPrim = none :=
  (c4_customer_fallback idxStd ["O1"] [("O1", snapO1)]
    (EFW.dataRows csvBlankEmail) rowPrim (by decide)).2
    (Or.inr ⟨by decide, rowPrim, by decide, by decide⟩)

/-- C5 counterexample: with the dc filter, the Houston-sourced second row of
csvMixedSource still produces an output record (its order qualified through
the first, DC-sourced row), so a row whose source name does not match the
filter can contribute a record. -/
theorem c5_counterexample :
    (EFW.parseCSVData csvMixedSource (some EFW.City.dc)).map
        (fun l => l.map (fun r => (r.customerName, r.className))) =
      Except.ok [("Bob", "YOGA"), ("Ann", "DANCE")] ∧
    EFW.getField ((EFW.dataRows csvMixedSource).getD 1 []) idxStd.sourceName =
      "Ebony Fit Weekend - Houston" ∧
    ("Ebony Fit Weekend - Houston" : String) ≠ "Ebony Fit Weekend - DC" ∧
    (EFW.pass2Row idxStd
        (EFW.pass1 idxStd (EFW.targetSource (some EFW.City.dc))
          (EFW.dataRows csvMixedSource)).1
        (EFW.pass1 idxStd (EFW.targetSource (some EFW.City.dc))
          (EFW.dataRows csvMixedSource)).2
        (EFW.dataRows csvMixedSource)
        ((EFW.dataRows csvMixedSource).getD 1 [])).map
        (fun r => r.className) = some "DANCE" :=
  ⟨by decide, by decide, by decide, by decide⟩

/-- C5 (amended): with a city filter, a row whose source name does not match
the filter label never qualifies in pass 1, and every emitted ParsedOrder
belongs to an order with a first-qualifying-row snapshot whose four
order-level values the record copies; a non-matching row of an order that
qualified through another row can still contribute a record (see the
counterexample). -/
theorem c5_city_scoping (csv : String) (city : EFW.City)
    (out : List EFW.ParsedOrder) (idx : EFW.Indices) (t : String)
    (hok : EFW.parseCSVData csv (some city) = Except.ok out)
    (hres : EFW.resolveIndices (EFW.parseCSVLine (EFW.headerLine csv)) =
      Except.ok idx)
    (htgt : EFW.targetSource (some city) = some t) :
    (∀ v : List String, EFW.getField v idx.sourceName ≠ t →
      EFW.rowQual idx (some t) v = none) ∧
    ∀ r ∈ out, ∃ snap : EFW.Snapshot,
      EFW.firstSnap idx (EFW.targetSource (some city)) (EFW.dataRows csv)
          r.orderId = some snap ∧
        r.orderSubTotal = snap.orderSubTotal ∧
        r.orderTaxAmount = snap.orderTaxAmount ∧
        r.orderTotalAmount = snap.orderTotalAmount ∧
        r.sourceName = snap.sourceName := by
  refine ⟨fun v hne => rowQual_none_of_wrong_source idx t v hne,
    fun r hr => ?_⟩
  obtain ⟨idx2, hres2, hsnap⟩ :=
    mem_parse_snapshot csv (some city) out r hok hr
  have hidx : idx2 = idx := Except.ok.inj (hres2.symm.trans hres)
  rw [hidx] at hsnap
  exact ⟨_, hsnap, rfl, rfl, rfl, rfl⟩

/-- Witness for the amended C5: the Houston-sourced row of csvMixedSource
does not qualify in pass 1 under the dc filter. -/
theorem c5_witness :
    EFW.rowQual idxStd (some "Ebony Fit Weekend - DC")
      ((EFW.dataRows csvMixedSource).getD 1 []) = none :=
  (c5_city_scoping csvMixedSource EFW.City.dc
    ((EFW.parseCSVData csvMixedSource (some EFW.City.dc)).toOption.getD [])
    idxStd "Ebony Fit Weekend - DC" (by decide) (by decide) rfl).1
    ((EFW.dataRows csvMixedSource).getD 1 []) (by decide)

/-- C10: with no city filter, every emitted record's sourceName is one of
the two known labels Ebony Fit Weekend - DC and Ebony Fit Weekend -
Atlanta; an export carrying only the Houston label parses to the empty
record list, while DC and Atlanta rows are both accepted. -/
theorem c10_valid_city_labels :
    (∀ (csv : String) (out : List EFW.ParsedOrder),
      EFW.parseCSVData csv none = Except.ok out →
      ∀ r ∈ out,
        r.sourceName = "Ebony Fit Weekend - DC" ∨
        r.sourceName = "Ebony Fit Weekend - Atlanta") ∧
    EFW.parseCSVData csvHouston none = Except.ok [] ∧
    (EFW.parseCSVData csvBothCities none).map
        (fun l => l.map (fun r => r.sourceName)) =
      Except.ok ["Ebony Fit Weekend - DC", "Ebony Fit Weekend - Atlanta"] := by
  refine ⟨?_, by decide, by decide⟩
  intro csv out hok r hr
  obtain ⟨idx, hres, hsnap⟩ := mem_parse_snapshot csv none out r hok hr
  obtain ⟨v, hv, hq⟩ := firstSnap_some_elim _ _ _ _ _ hsnap
  obtain ⟨ho, hsrcEq, hvalid, hst⟩ := rowQual_some_spec _ _ _ _ _ hq
  have hr2 : r.sourceName = EFW.getField v idx.sourceName := hsrcEq
  have hv2 : EFW.isValidSource none (EFW.getField v idx.sourceName) = true :=
    hvalid
  rcases isValidSource_none_elim _ hv2 with h | h
  · exact Or.inl (hr2.trans h)
  · exact Or.inr (hr2.trans h)

/-- Witness for C10 at the first record of the two-city export. -/
theorem c10_witness :
    (((EFW.parseCSVData csvBothCities none).toOption.getD []).headD
        recDefault).sourceName = "Ebony Fit Weekend - DC" ∨
    (((EFW.parseCSVData csvBothCities none).toOption.getD []).headD
        recDefault).sourceName = "Ebony Fit Weekend - Atlanta" :=
  c10_valid_city_labels.1 csvBothCities
    ((EFW.parseCSVData csvBothCities none).toOption.getD [])
    (by decide)
    (((EFW.parseCSVData csvBothCities none).toOption.getD []).headD recDefault)
    (by decide)

/-- C6: schema resolution maps every required field to the first header
column containing its label case-insensitively; a missing label makes the
whole parse fail before any data row is processed with an error naming a
missing label, and schema resolution is the only error path of the parse —
once resolution succeeds the parse always returns a record list. -/
theorem c6_schema_errors :
    (∀ (headers : List String) (idx : EFW.Indices),
      EFW.resolveIndices headers = Except.ok idx → indicesSpec headers idx) ∧
    (∀ (headers : List String) (e : String),
      EFW.resolveIndices headers = Except.error e →
      ∃ label ∈ requiredLabels,
        headers.findIdx? (EFW.colMatches label) = none ∧ e = colError label) ∧
    (∀ headers : List String,
      (∃ label ∈ requiredLabels,
        headers.findIdx? (EFW.colMatches label) = none) →
      ∃ e, EFW.resolveIndices headers = Except.error e) ∧
    (∀ (csv : String) (city : Option EFW.City) (e : String),
      EFW.parseCSVData csv city = Except.error e ↔
      EFW.resolveIndices (EFW.parseCSVLine (EFW.headerLine csv)) =
        Except.error e) ∧
    (∀ (csv : String) (city : Option EFW.City) (idx : EFW.Indices),
      EFW.resolveIndices (EFW.parseCSVLine (EFW.headerLine csv)) =
        Except.ok idx →
      ∃ out, EFW.parseCSVData csv city = Except.ok out) := by
  refine ⟨fun hs idx h => resolveIndices_ok_spec hs idx h,
    fun hs e h => resolveIndices_error_spec hs e h, ?_, ?_, ?_⟩
  · intro headers hmiss
    cases hE : EFW.resolveIndices headers with
    | error e => exact ⟨e, rfl⟩
    | ok idx =>
        exfalso
        obtain ⟨label, hmem, hnone⟩ := hmiss
        obtain ⟨s1, s2, s3, s4, s5, s6, s7, s8, s9, s10, s11, s12, s13,
          s14, s15⟩ := resolveIndices_ok_spec headers idx hE
        simp only [requiredLabels, List.mem_cons, List.not_mem_nil,
          or_false] at hmem
        rcases hmem with rfl | rfl | rfl | rfl | rfl | rfl | rfl | rfl |
          rfl | rfl | rfl | rfl | rfl | rfl | rfl <;> simp_all
  · intro csv city e
    unfold EFW.parseCSVData
    cases hE : EFW.resolveIndices (EFW.parseCSVLine (EFW.headerLine csv)) with
    | error e2 =>
        exact ⟨fun h => congrArg Except.error (Except.error.inj h),
               fun h => congrArg Except.error (Except.error.inj h)⟩
    | ok idx => exact ⟨fun h => Except.noConfusion h,
        fun h => Except.noConfusion h⟩
  · intro csv city idx hres
    unfold EFW.parseCSVData
    rw [hres]
    exact ⟨_, rfl⟩

/-- Witness for C6: the canonical header resolves to the standard indices,
each required label matched at its first-match position. -/
theorem c6_witness : indicesSpec (EFW.parseCSVLine csvHeader) idxStd :=
  c6_schema_errors.1 (EFW.parseCSVLine csvHeader) idxStd (by decide)

/-- C7: the class-name canonicalizer strips a trailing capacity annotation,
collapses a two-part case-insensitive duplicate to its first part, collapses
a four-part duplicate to its first half, and otherwise returns the string
unchanged except for trimming; in particular the four documented examples
hold. -/
theorem c7_cleanClassName_contract :
    EFW.cleanClassName "ONLY YAMS - ONLY YAMS" = "ONLY YAMS" ∧
    EFW.cleanClassName "TRAP MOBILITY @ 24" = "TRAP MOBILITY" ∧
    EFW.cleanClassName "PILATES - TIGHT & TONE - PILATES - TIGHT & TONE" =
      "PILATES - TIGHT & TONE" ∧
    EFW.cleanClassName "SPIN CLASS" = "SPIN CLASS" ∧
    ∀ s : String, (EFW.splitDash (EFW.stripCapacity s)).length ≠ 2 →
      (EFW.splitDash (EFW.stripCapacity s)).length ≠ 4 →
      EFW.cleanClassName s = EFW.myTrim (EFW.stripCapacity s) := by
  refine ⟨by decide, by decide, by decide, by decide, ?_⟩
  intro s h2 h4
  simp only [EFW.cleanClassName, EFW.collapseStep]
  rw [if_neg h2, if_neg h4]

/-- Witness for C7 at a concrete three-part class name, where neither
collapse applies and the canonicalizer only strips and trims. -/
theorem c7_witness :
    EFW.cleanClassName "HIIT - CARDIO - BLAST" =
      EFW.myTrim (EFW.stripCapacity "HIIT - CARDIO - BLAST") :=
  c7_cleanClassName_contract.2.2.2.2 "HIIT - CARDIO - BLAST"
    (by decide) (by decide)

/-- C8 counterexample: canonicalization is not idempotent; the four-part
duplicate "A - A - A - A" collapses to "A - A", which a second run collapses
further to "A". -/
theorem c8_counterexample :
    EFW.cleanClassName (EFW.cleanClassName "A - A - A - A") ≠
      EFW.cleanClassName "A - A - A - A" := by decide

/-- C8 (amended): re-running the canonicalizer returns its output unchanged
whenever that output is a fixed point of the capacity strip and of the
duplicate-collapse step; the general idempotence claim fails (see the
counterexample), because one pass can expose a new trailing capacity
annotation or a newly collapsible duplicate. -/
theorem c8_idempotent_on_fixed_points (s : String)
    (h1 : EFW.stripCapacity (EFW.cleanClassName s) = EFW.cleanClassName s)
    (h2 : EFW.collapseStep (EFW.cleanClassName s) = EFW.cleanClassName s) :
    EFW.cleanClassName (EFW.cleanClassName s) = EFW.cleanClassName s := by
  have hy : EFW.cleanClassName s =
      EFW.myTrim (EFW.collapseStep (EFW.stripCapacity s)) := rfl
  calc EFW.cleanClassName (EFW.cleanClassName s)
      = EFW.myTrim (EFW.collapseStep (EFW.stripCapacity (EFW.cleanClassName s))) := rfl
    _ = EFW.myTrim (EFW.cleanClassName s) := by rw [h1, h2]
    _ = EFW.cleanClassName s := by rw [hy, myTrim_idem]

/-- Witness for the amended C8 at the already-canonical name SPIN CLASS. -/
theorem c8_witness :
    EFW.cleanClassName (EFW.cleanClassName "SPIN CLASS") =
      EFW.cleanClassName "SPIN CLASS" :=
  c8_idempotent_on_fixed_points "SPIN CLASS" (by decide) (by decide)

/-- C9: the tokenizer splits on commas outside quotes, treats a doubled
quote inside a quoted region as a literal quote, lets an unterminated quoted
region consume to end of line, and always returns at least one field. -/
theorem c9_tokenizer_contract :
    EFW.parseCSVLine "a,\"b,c\",d" = ["a", "b,c", "d"] ∧
    EFW.parseCSVLine "a,\"b\"\"c\",d" = ["a", "b\"c", "d"] ∧
    EFW.parseCSVLine "a,\"bc" = ["a", "bc"] ∧
    ∀ line : String, 1 ≤ (EFW.parseCSVLine line).length := by
  refine ⟨by decide, by decide, by decide, ?_⟩
  intro line
  have h := parseCSVLineAux_len line.data.length line.data (le_refl _) false []
  simpa [EFW.parseCSVLine] using h
